import Mathlib

/-!
Shallow embedding of nuitka/utils/WindowsResources.py.

The module manipulates resources embedded in Windows binaries through the
OS resource subsystem.  The OS primitives are modelled by an environment
`OsEnv` that decides whether each fallible primitive succeeds, together
with a resource table `ResTable` standing for the resource directory of a
file.  Every embedded function returns, besides its Python result (in an
exception monad `Except PyErr` where the source can raise), the list of
OS calls it performed, so that handle release, staging and commit
behaviour can be stated exactly.  A raised error skips the rest of the
function body unless a try/finally intervenes.  The enumeration callback
is special: its body checks no OS results and contains no raise, and a
Python exception inside a ctypes callback could not unwind the foreign
EnumResourceNames frame anyway (ctypes confines it to the callback), so
enumeration never raises into the caller and is modelled as infallible.
-/

namespace WindowsResources

/-- SxS manifest files resource kind (source line 33). -/
def RT_MANIFEST : Nat := 24

/-- Data resource kind (source line 35). -/
def RT_RCDATA : Nat := 10

/-- Icon group resource kind (source line 37). -/
def RT_GROUP_ICON : Nat := 14

/-- Icon resource kind (source line 39). -/
def RT_ICON : Nat := 3

/-- Raw byte payload of a resource. -/
abbrev Bytes := List Nat

/-- A resource identifier: a small integer ID or a text name. -/
inductive ResName where
  | intId (n : Nat)
  | textId (s : String)
deriving DecidableEq

/-- Which character-width family an OS entry point belongs to:
`narrowA` is the fixed 8-bit entry point, `wideW` the 16-bit one. -/
inductive EntryPoint where
  | narrowA
  | wideW
deriving DecidableEq

/-- A Python filename argument: `str` selects the wide entry point for
loading and opening, `bytes` the narrow one (source lines 51-54, 114-121). -/
inductive FileName where
  | str (s : String)
  | bytes (b : Bytes)
deriving DecidableEq

/-- Entry point selected from the runtime type of the filename
(source lines 51-54 and 114-121). -/
def loadEntryPoint : FileName → EntryPoint
  | .str _ => .wideW
  | .bytes _ => .narrowA

/-- One entry of the resource directory of a binary. -/
structure ResEntry where
  kind : Nat
  name : ResName
  lang : Nat
  data : Bytes
deriving DecidableEq

/-- The resource directory of one file. -/
abbrev ResTable := List ResEntry

/-- Errors raised by the embedded code: `winError` models
`raise ctypes.WinError()`, `assertionError` a failing `assert`,
`typeError` a failing tuple unpacking. -/
inductive PyErr where
  | winError
  | assertionError
  | typeError
deriving DecidableEq

/-- The Python value returned by a function body with no return
statement: `None`. -/
inductive PyVal where
  | none
deriving DecidableEq

/-- Python truthiness of the values that occur here: `None` is falsy. -/
def truthy : PyVal → Bool
  | .none => false

/-- The OS calls the module performs, with the data needed to reason
about them. -/
inductive OsCall where
  | loadLibraryEx (ep : EntryPoint)
  | enumResourceNames (ep : EntryPoint) (kind : Nat)
  | findResource (ep : EntryPoint) (name : ResName) (kind : Nat)
  | sizeofResource (size : Nat)
  | loadResource
  | lockResource
  | freeResource
  | freeLibrary
  | beginUpdateResource (ep : EntryPoint)
  | updateResource (ep : EntryPoint) (kind : Nat) (name : ResName) (lang : Nat) (size : Nat)
  | endUpdateResource (ep : EntryPoint)
deriving DecidableEq

/-- A record of the OS calls performed, in order. -/
abbrev Trace := List OsCall

/-- Outcomes of the OS primitives whose results the source checks and
turns into raises: whether loading the library succeeds (line 79),
whether opening an update session succeeds (line 126), whether staging
one update succeeds (line 168), whether committing succeeds (line 143).
The enumeration callback checks no results, so it has no knob here. -/
structure OsEnv where
  loadOk : Bool
  beginOk : Bool
  updateOk : Nat → ResName → Bool
  endOk : Bool

/-- A result item of getResourcesFromDLL: a bare name when with_data is
false, a (type, name, data) triple when it is true (source lines 97, 101). -/
inductive ResItem where
  | nameOnly (name : ResName)
  | full (kind : Nat) (name : ResName) (data : Bytes)
deriving DecidableEq

/-- The with_data body of the enumeration callback (source lines 85-99):
FindResourceA, SizeofResource, LoadResource, then LockResource and a
copy of exactly `size` bytes inside a try block whose finally clause
calls FreeResource.  The body checks none of these results and contains
no raise, so it is infallible: the OS reports the stored size and the
copy reads the stored bytes. -/
def extractOne (lpType : Nat) (lpName : ResName) (stored : Bytes) :
    (Nat × ResName × Bytes) × Trace :=
  ((lpType, lpName, stored),
    [.findResource .narrowA lpName lpType, .sizeofResource stored.length,
     .loadResource, .lockResource, .freeResource])

/-- EnumResourceNamesA driving the callback once per resource of the
requested kind (source line 105): the OS passes the requested type back
to the callback as lpType.  The callback raises nothing, and ctypes
could not propagate a callback exception through the foreign
enumeration frame anyway, so the loop always completes and returns its
accumulated items to the caller. -/
def enumLoop (with_data : Bool) (kind : Nat) :
    List (ResName × Bytes) → List ResItem × Trace
  | [] => ([], [])
  | (name, stored) :: rest =>
    if with_data then
      match extractOne kind name stored with
      | ((k, n, d), tr) =>
        match enumLoop with_data kind rest with
        | (items, tr2) => (.full k n d :: items, tr ++ tr2)
    else
      match enumLoop with_data kind rest with
      | (items, tr2) => (.nameOnly name :: items, tr2)

/-- The entries of the resource directory that have the requested kind,
in directory order, as (name, data) pairs: these are the resources the
OS enumeration reports for that kind. -/
def matchingEntries (table : ResTable) (kind : Nat) : List (ResName × Bytes) :=
  (table.filter (fun e => e.kind == kind)).map (fun e => (e.name, e.data))

/-- getResourcesFromDLL (source lines 42-108): LoadLibraryEx with the
entry point picked from the filename type; raise WinError when the
handle is zero; enumerate with the fixed narrow EnumResourceNamesA,
whose return value the source ignores; FreeLibrary and return the
result list.  After a successful load nothing can raise before line
107, so FreeLibrary is reached on every post-load path. -/
def getResourcesFromDLL (env : OsEnv) (filename : FileName) (table : ResTable)
    (resource_kind : Nat) (with_data : Bool) :
    Except PyErr (List ResItem) × Trace :=
  if env.loadOk then
    match enumLoop with_data resource_kind (matchingEntries table resource_kind) with
    | (items, tr) =>
      (.ok items,
        .loadLibraryEx (loadEntryPoint filename) ::
          .enumResourceNames .narrowA resource_kind :: (tr ++ [.freeLibrary]))
  else
    (.error .winError, [.loadLibraryEx (loadEntryPoint filename)])

/-- One staged operation of an open update session: data present means
add or replace, data absent means delete. -/
structure StagedOp where
  kind : Nat
  name : ResName
  lang : Nat
  data : Option Bytes
deriving DecidableEq

/-- An open update session handle: the operations staged so far. -/
structure UpdateHandle where
  staged : List StagedOp
deriving DecidableEq

/-- Embeds _openFileWindowsResources (source lines 111-129): BeginUpdateResource
with the entry point picked from the filename type; raise WinError when
the handle is null. -/
def _openFileWindowsResources (env : OsEnv) (filename : FileName) :
    Except PyErr UpdateHandle × Trace :=
  if env.beginOk then
    (.ok ⟨[]⟩, [.beginUpdateResource (loadEntryPoint filename)])
  else
    (.error .winError, [.beginUpdateResource (loadEntryPoint filename)])

/-- Size passed to UpdateResourceA (source lines 150-153): 0 for absent
data, the byte length otherwise. -/
def dataSize : Option Bytes → Nat
  | none => 0
  | some d => d.length

/-- Applying one staged operation to a resource directory on commit:
a delete removes the (kind, name) entry, an add or replace installs the
new bytes under it. -/
def applyStagedOp (table : ResTable) (op : StagedOp) : ResTable :=
  match op.data with
  | none => table.filter (fun e => !(e.kind == op.kind && e.name == op.name))
  | some d =>
    table.filter (fun e => !(e.kind == op.kind && e.name == op.name)) ++
      [⟨op.kind, op.name, op.lang, d⟩]

/-- Embeds _closeFileWindowsResources (source lines 132-144): EndUpdateResourceA
with discard false commits every staged operation; raise WinError when
the OS reports failure. -/
def _closeFileWindowsResources (env : OsEnv) (update_handle : UpdateHandle)
    (table : ResTable) : Except PyErr Unit × Trace × ResTable :=
  if env.endOk then
    (.ok (), [.endUpdateResource .narrowA], update_handle.staged.foldl applyStagedOp table)
  else
    (.error .winError, [.endUpdateResource .narrowA], table)

/-- Embeds _updateResource (source lines 147-169): the fixed narrow
UpdateResourceA is called with the literal language 0 (line 166), the
`lang` argument being ignored; raise WinError when the OS rejects the
staging; a plain fall-through return yields None. -/
def _updateResource (env : OsEnv) (update_handle : UpdateHandle) (resource_kind : Nat)
    (res_name : ResName) (lang : Nat) (data : Option Bytes) :
    Except PyErr PyVal × Trace × UpdateHandle :=
  if env.updateOk resource_kind res_name then
    (.ok .none, [.updateResource .narrowA resource_kind res_name 0 (dataSize data)],
      ⟨update_handle.staged ++ [⟨resource_kind, res_name, 0, data⟩]⟩)
  else
    (.error .winError, [.updateResource .narrowA resource_kind res_name 0 (dataSize data)],
      update_handle)

/-- The loop body of deleteWindowsResources (source lines 177-181):
stage a delete, bind the returned value to ret, and raise WinError when
ret is falsy. -/
def deleteLoop (env : OsEnv) (resource_kind : Nat) (update_handle : UpdateHandle) :
    List ResName → Except PyErr UpdateHandle × Trace
  | [] => (.ok update_handle, [])
  | res_name :: rest =>
    match _updateResource env update_handle resource_kind res_name 0 none with
    | (.ok ret, tr, h2) =>
      if truthy ret then
        match deleteLoop env resource_kind h2 rest with
        | (r, tr2) => (r, tr ++ tr2)
      else
        (.error .winError, tr)
    | (.error e, tr, _) => (.error e, tr)

/-- deleteWindowsResources (source lines 172-183): open a session, run
the staging loop over the names, then commit. -/
def deleteWindowsResources (env : OsEnv) (filename : FileName) (table : ResTable)
    (resource_kind : Nat) (res_names : List ResName) :
    Except PyErr Unit × Trace × ResTable :=
  match _openFileWindowsResources env filename with
  | (.error e, tr) => (.error e, tr, table)
  | (.ok update_handle, tr) =>
    match deleteLoop env resource_kind update_handle res_names with
    | (.ok h2, tr2) =>
      match _closeFileWindowsResources env h2 table with
      | (r, tr3, table2) => (r, tr ++ tr2 ++ tr3, table2)
    | (.error e, tr2) => (.error e, tr ++ tr2, table)

/-- The loop body of copyResourcesFromFileToFile (source lines 192-195):
unpack each item as a (kind, name, data) triple, assert the kind equals
the requested kind, and stage the bytes. -/
def copyLoop (env : OsEnv) (resource_kind : Nat) (update_handle : UpdateHandle) :
    List ResItem → Except PyErr UpdateHandle × Trace
  | [] => (.ok update_handle, [])
  | .nameOnly _ :: _ => (.error .typeError, [])
  | .full kind res_name data :: rest =>
    if kind == resource_kind then
      match _updateResource env update_handle resource_kind res_name 0 (some data) with
      | (.ok _, tr, h2) =>
        match copyLoop env resource_kind h2 rest with
        | (r, tr2) => (r, tr ++ tr2)
      | (.error e, tr, _) => (.error e, tr)
    else
      (.error .assertionError, [])

/-- copyResourcesFromFileToFile (source lines 186-197): read the
resources of the requested kind with their data; when the list is
truthy (non-empty), open a session on the target, stage every triple
and commit; otherwise do nothing at all to the target. -/
def copyResourcesFromFileToFile (env : OsEnv) (source_filename target_filename : FileName)
    (source target : ResTable) (resource_kind : Nat) :
    Except PyErr Unit × Trace × ResTable :=
  match getResourcesFromDLL env source_filename source resource_kind true with
  | (.error e, tr) => (.error e, tr, target)
  | (.ok res_data, tr) =>
    if res_data.isEmpty then
      (.ok (), tr, target)
    else
      match _openFileWindowsResources env target_filename with
      | (.error e, tr2) => (.error e, tr ++ tr2, target)
      | (.ok update_handle, tr2) =>
        match copyLoop env resource_kind update_handle res_data with
        | (.ok h2, tr3) =>
          match _closeFileWindowsResources env h2 target with
          | (r, tr4, target2) => (r, tr ++ tr2 ++ tr3 ++ tr4, target2)
        | (.error e, tr3) => (.error e, tr ++ tr2 ++ tr3, target)

/-- addResourceToFile (source lines 200-205): open a session, stage one
add, commit. -/
def addResourceToFile (env : OsEnv) (target_filename : FileName) (target : ResTable)
    (data : Bytes) (resource_kind : Nat) (res_name : ResName) :
    Except PyErr Unit × Trace × ResTable :=
  match _openFileWindowsResources env target_filename with
  | (.error e, tr) => (.error e, tr, target)
  | (.ok update_handle, tr) =>
    match _updateResource env update_handle resource_kind res_name 0 (some data) with
    | (.error e, tr2, _) => (.error e, tr ++ tr2, target)
    | (.ok _, tr2, h2) =>
      match _closeFileWindowsResources env h2 target with
      | (r, tr3, target2) => (r, tr ++ tr2 ++ tr3, target2)

/-- Recognizes the staging call UpdateResource in a trace. -/
def isStageCall : OsCall → Bool
  | .updateResource _ _ _ _ _ => true
  | _ => false

/-- Recognizes the committing call EndUpdateResource in a trace. -/
def isCommitCall : OsCall → Bool
  | .endUpdateResource _ => true
  | _ => false

/-- Recognizes the session-opening call BeginUpdateResource in a trace. -/
def isBeginCall : OsCall → Bool
  | .beginUpdateResource _ => true
  | _ => false

/-- Recognizes FreeLibrary in a trace. -/
def isFreeLibraryCall : OsCall → Bool
  | .freeLibrary => true
  | _ => false

/-- Recognizes FreeResource in a trace. -/
def isFreeResourceCall : OsCall → Bool
  | .freeResource => true
  | _ => false

/-- Recognizes LoadResource in a trace. -/
def isLoadResourceCall : OsCall → Bool
  | .loadResource => true
  | _ => false

/-- An OS call that receives a resource identifier uses the narrow entry
point; calls that take no identifier are ignored. -/
def usesNarrowForIdentifiers : OsCall → Bool
  | .enumResourceNames ep _ => ep == .narrowA
  | .findResource ep _ _ => ep == .narrowA
  | .updateResource ep _ _ _ _ => ep == .narrowA
  | _ => true

/-- The entry point of an identifier-taking OS call, none otherwise. -/
def identifierEntryPoint : OsCall → Option EntryPoint
  | .enumResourceNames ep _ => some ep
  | .findResource ep _ _ => some ep
  | .updateResource ep _ _ _ _ => some ep
  | _ => Option.none

/-- Extracting a named resource from an enumeration result list: the
data of the first full item carrying that name. -/
def findData : List ResItem → ResName → Option Bytes
  | [], _ => Option.none
  | .nameOnly _ :: rest, name => findData rest name
  | .full _ n d :: rest, name => if n == name then some d else findData rest name

/-- findData through the exception layer: no data on an error result. -/
def lookupItems : Except PyErr (List ResItem) → ResName → Option Bytes
  | .error _, _ => Option.none
  | .ok items, name => findData items name

/-- Whether a composed operation failed on the kind assertion. -/
def isAssertionFailure : Except PyErr Unit → Bool
  | .error .assertionError => true
  | _ => false

/-- An environment in which every OS primitive succeeds. -/
def allOkEnv : OsEnv := ⟨true, true, fun _ _ => true, true⟩

/-- A full item whose kind field equals the requested kind; bare names
carry no kind field. -/
def kindsMatch (resource_kind : Nat) : ResItem → Bool
  | .full k _ _ => k == resource_kind
  | .nameOnly _ => true

end WindowsResources

namespace WindowsResources

theorem updateResource_trace (env : OsEnv) (update_handle : UpdateHandle)
    (resource_kind : Nat) (res_name : ResName) (lang : Nat) (data : Option Bytes) :
    (_updateResource env update_handle resource_kind res_name lang data).2.1 =
      [.updateResource .narrowA resource_kind res_name 0 (dataSize data)] := by
  unfold _updateResource
  split <;> rfl

/-- C8: every staged resource update records the neutral language value 0:
two runs of _updateResource differing only in the lang argument are
identical, the one UpdateResource call in the trace carries language 0, and
the staged operation (when the OS accepts it) carries language 0. -/
theorem updateResource_lang_neutral (env : OsEnv) (update_handle : UpdateHandle)
    (resource_kind : Nat) (res_name : ResName) (lang lang2 : Nat) (data : Option Bytes) :
    _updateResource env update_handle resource_kind res_name lang data =
      _updateResource env update_handle resource_kind res_name lang2 data ∧
    (_updateResource env update_handle resource_kind res_name lang data).2.1 =
      [.updateResource .narrowA resource_kind res_name 0 (dataSize data)] ∧
    ((_updateResource env update_handle resource_kind res_name lang data).2.2 =
        ⟨update_handle.staged ++ [⟨resource_kind, res_name, 0, data⟩]⟩ ∨
      (_updateResource env update_handle resource_kind res_name lang data).2.2 =
        update_handle) := by
  unfold _updateResource
  split
  · exact ⟨rfl, rfl, Or.inl rfl⟩
  · exact ⟨rfl, rfl, Or.inr rfl⟩

theorem enumLoop_countP_free_eq_load (with_data : Bool) (kind : Nat)
    (l : List (ResName × Bytes)) :
    ((enumLoop with_data kind l).2.countP isFreeResourceCall) =
      ((enumLoop with_data kind l).2.countP isLoadResourceCall) := by
  induction l with
  | nil => simp [enumLoop]
  | cons p rest ih =>
    obtain ⟨name, stored⟩ := p
    cases with_data with
    | true =>
      rcases he : enumLoop true kind rest with ⟨items, tre⟩
      have hre : (tre.countP isFreeResourceCall) = (tre.countP isLoadResourceCall) := by
        have := ih
        rw [he] at this
        exact this
      simp [enumLoop, extractOne, he, hre, List.countP_append, List.countP_cons,
        isFreeResourceCall, isLoadResourceCall]
    | false =>
      rcases he : enumLoop false kind rest with ⟨items, tre⟩
      have hre : (tre.countP isFreeResourceCall) = (tre.countP isLoadResourceCall) := by
        have := ih
        rw [he] at this
        exact this
      simp [enumLoop, he, hre]

/-- C4: in getResourcesFromDLL with with_data set, every loaded resource
block is released: the trace carries exactly as many FreeResource calls as
LoadResource calls, because the release sits in the finally clause of the
per-resource extraction and runs after every copy. -/
theorem getResourcesFromDLL_frees_every_loaded_block (env : OsEnv) (filename : FileName)
    (table : ResTable) (resource_kind : Nat) :
    ((getResourcesFromDLL env filename table resource_kind true).2.countP
      isFreeResourceCall) =
      ((getResourcesFromDLL env filename table resource_kind true).2.countP
        isLoadResourceCall) := by
  cases hl : env.loadOk with
  | false =>
    simp [getResourcesFromDLL, hl, List.countP_cons, isFreeResourceCall,
      isLoadResourceCall]
  | true =>
    rcases he : enumLoop true resource_kind (matchingEntries table resource_kind)
      with ⟨items, tre⟩
    have hre : (tre.countP isFreeResourceCall) = (tre.countP isLoadResourceCall) := by
      have := enumLoop_countP_free_eq_load true resource_kind
        (matchingEntries table resource_kind)
      rw [he] at this
      exact this
    simp [getResourcesFromDLL, hl, he, hre, List.countP_append, List.countP_cons,
      isFreeResourceCall, isLoadResourceCall]

/-- C1: divergence witnessed on a concrete run in which every OS primitive
succeeds: deleting the single identifier 1 of kind 24 raises WinError, and
the committing call EndUpdateResource never appears in the trace, against
the claim that commit is reached and the function returns normally. -/
theorem deleteWindowsResources_concrete_never_commits :
    (deleteWindowsResources allOkEnv (.str "program.exe") [⟨24, .intId 1, 0, [0]⟩] 24
        [.intId 1]).1 = .error .winError ∧
    ((deleteWindowsResources allOkEnv (.str "program.exe") [⟨24, .intId 1, 0, [0]⟩] 24
        [.intId 1]).2.1.countP isCommitCall) = 0 :=
  ⟨rfl, rfl⟩

/-- C2: for every non-empty identifier list, when the OS accepts the session
opening and every staged delete, deleteWindowsResources raises WinError
after staging exactly one deletion and never reaches the commit call: the
staging helper returns None, so the truthiness check on its result fires on
the first iteration. -/
theorem deleteWindowsResources_raises_after_first_stage (env : OsEnv)
    (filename : FileName) (table : ResTable) (resource_kind : Nat)
    (res_name : ResName) (rest : List ResName)
    (hbegin : env.beginOk = true)
    (hupd : ∀ k n, env.updateOk k n = true) :
    (deleteWindowsResources env filename table resource_kind (res_name :: rest)).1 =
      .error .winError ∧
    ((deleteWindowsResources env filename table resource_kind (res_name :: rest)).2.1.countP
      isStageCall) = 1 ∧
    ((deleteWindowsResources env filename table resource_kind (res_name :: rest)).2.1.countP
      isCommitCall) = 0 := by
  simp [deleteWindowsResources, _openFileWindowsResources, hbegin, deleteLoop,
    _updateResource, hupd, truthy, List.countP_cons, List.countP_nil,
    isStageCall, isCommitCall]

/-- Witness for C2 at a concrete input: the all-success environment, one
identifier. -/
theorem deleteWindowsResources_raises_after_first_stage_witness :
    allOkEnv.beginOk = true ∧ (∀ k n, allOkEnv.updateOk k n = true) ∧
    ((deleteWindowsResources allOkEnv (.bytes []) [] 24 [.intId 7]).1 =
        .error .winError ∧
      ((deleteWindowsResources allOkEnv (.bytes []) [] 24 [.intId 7]).2.1.countP
        isStageCall) = 1 ∧
      ((deleteWindowsResources allOkEnv (.bytes []) [] 24 [.intId 7]).2.1.countP
        isCommitCall) = 0) :=
  ⟨rfl, fun _ _ => rfl,
    deleteWindowsResources_raises_after_first_stage allOkEnv (.bytes []) [] 24
      (.intId 7) [] rfl (fun _ _ => rfl)⟩

theorem enumLoop_no_freeLibrary (with_data : Bool) (kind : Nat)
    (l : List (ResName × Bytes)) :
    ((enumLoop with_data kind l).2.countP isFreeLibraryCall) = 0 := by
  induction l with
  | nil => simp [enumLoop]
  | cons p rest ih =>
    obtain ⟨name, stored⟩ := p
    cases with_data with
    | true =>
      rcases he : enumLoop true kind rest with ⟨items, tre⟩
      have hre : (tre.countP isFreeLibraryCall) = 0 := by
        have := ih
        rw [he] at this
        exact this
      simp [enumLoop, extractOne, he, hre, List.countP_append, List.countP_cons,
        isFreeLibraryCall]
    | false =>
      rcases he : enumLoop false kind rest with ⟨items, tre⟩
      have hre : (tre.countP isFreeLibraryCall) = 0 := by
        have := ih
        rw [he] at this
        exact this
      cases re : items <;> simp [enumLoop, he, hre]

/-- C3: for every invocation in which the library load succeeds, the
library handle is released exactly once on every exit path: the callback
body raises nothing and ctypes confines any callback exception to the
callback, so nothing can raise between the successful load and FreeLibrary;
the function returns normally and its trace carries exactly one FreeLibrary
call. -/
theorem getResourcesFromDLL_frees_library_exactly_once (env : OsEnv)
    (filename : FileName) (table : ResTable) (resource_kind : Nat) (with_data : Bool)
    (hload : env.loadOk = true) :
    (∃ items,
      (getResourcesFromDLL env filename table resource_kind with_data).1 = .ok items) ∧
    ((getResourcesFromDLL env filename table resource_kind with_data).2.countP
      isFreeLibraryCall) = 1 := by
  rcases he : enumLoop with_data resource_kind (matchingEntries table resource_kind)
    with ⟨items, tre⟩
  have hre : (tre.countP isFreeLibraryCall) = 0 := by
    have := enumLoop_no_freeLibrary with_data resource_kind
      (matchingEntries table resource_kind)
    rw [he] at this
    exact this
  constructor
  · exact ⟨items, by simp [getResourcesFromDLL, hload, he]⟩
  · simp [getResourcesFromDLL, hload, he, hre, List.countP_append, List.countP_cons,
      isFreeLibraryCall]

/-- Witness for C3 at a concrete input: all OS primitives succeed, the
result is the normal return, and FreeLibrary appears exactly once. -/
theorem getResourcesFromDLL_frees_library_exactly_once_witness :
    allOkEnv.loadOk = true ∧
    ((∃ items,
        (getResourcesFromDLL allOkEnv (.bytes []) [⟨24, .intId 1, 0, [0]⟩] 24 true).1 =
          .ok items) ∧
      ((getResourcesFromDLL allOkEnv (.bytes []) [⟨24, .intId 1, 0, [0]⟩] 24
          true).2.countP isFreeLibraryCall) = 1) :=
  ⟨rfl,
    getResourcesFromDLL_frees_library_exactly_once allOkEnv (.bytes [])
      [⟨24, .intId 1, 0, [0]⟩] 24 true rfl⟩

theorem matchingEntries_eq_nil (table : ResTable) (resource_kind : Nat)
    (hnone : ∀ e ∈ table, e.kind ≠ resource_kind) :
    matchingEntries table resource_kind = [] := by
  unfold matchingEntries
  have hf : table.filter (fun e => e.kind == resource_kind) = [] := by
    rw [List.filter_eq_nil_iff]
    intro e he
    simp [hnone e he]
  rw [hf]
  rfl

/-- C5: when the source holds no resources of the requested kind,
copyResourcesFromFileToFile opens no update session on the target, stages
nothing, commits nothing, and the target resource directory is returned
unchanged. -/
theorem copyResources_no_session_when_source_has_none (env : OsEnv)
    (source_filename target_filename : FileName) (source target : ResTable)
    (resource_kind : Nat)
    (hnone : ∀ e ∈ source, e.kind ≠ resource_kind) :
    (copyResourcesFromFileToFile env source_filename target_filename source target
        resource_kind).2.2 = target ∧
    ((copyResourcesFromFileToFile env source_filename target_filename source target
        resource_kind).2.1.countP isBeginCall) = 0 ∧
    ((copyResourcesFromFileToFile env source_filename target_filename source target
        resource_kind).2.1.countP isStageCall) = 0 ∧
    ((copyResourcesFromFileToFile env source_filename target_filename source target
        resource_kind).2.1.countP isCommitCall) = 0 := by
  have hm := matchingEntries_eq_nil source resource_kind hnone
  cases hl : env.loadOk <;>
    simp [copyResourcesFromFileToFile, getResourcesFromDLL, hl, hm, enumLoop,
      List.countP_cons, isBeginCall, isStageCall, isCommitCall]

/-- Witness for C5 at a concrete input: a source holding only an icon
resource (kind 3), copied for the manifest kind 24. -/
theorem copyResources_no_session_when_source_has_none_witness :
    (∀ e ∈ ([⟨3, .intId 1, 0, [0]⟩] : ResTable), e.kind ≠ 24) ∧
    ((copyResourcesFromFileToFile allOkEnv (.str "s.dll") (.str "t.exe")
        [⟨3, .intId 1, 0, [0]⟩] [⟨24, .intId 2, 0, [1]⟩] 24).2.2 =
      [⟨24, .intId 2, 0, [1]⟩] ∧
      ((copyResourcesFromFileToFile allOkEnv (.str "s.dll") (.str "t.exe")
          [⟨3, .intId 1, 0, [0]⟩] [⟨24, .intId 2, 0, [1]⟩] 24).2.1.countP isBeginCall) = 0 ∧
      ((copyResourcesFromFileToFile allOkEnv (.str "s.dll") (.str "t.exe")
          [⟨3, .intId 1, 0, [0]⟩] [⟨24, .intId 2, 0, [1]⟩] 24).2.1.countP isStageCall) = 0 ∧
      ((copyResourcesFromFileToFile allOkEnv (.str "s.dll") (.str "t.exe")
          [⟨3, .intId 1, 0, [0]⟩] [⟨24, .intId 2, 0, [1]⟩] 24).2.1.countP isCommitCall) = 0) :=
  ⟨by decide,
    copyResources_no_session_when_source_has_none allOkEnv (.str "s.dll") (.str "t.exe")
      [⟨3, .intId 1, 0, [0]⟩] [⟨24, .intId 2, 0, [1]⟩] 24 (by decide)⟩

/-- C7: enumerating a kind of which the binary holds no resources returns
the empty list and raises no error, whenever the library load itself
succeeds. -/
theorem getResourcesFromDLL_empty_kind (env : OsEnv) (filename : FileName)
    (table : ResTable) (resource_kind : Nat) (with_data : Bool)
    (hload : env.loadOk = true)
    (hnone : ∀ e ∈ table, e.kind ≠ resource_kind) :
    (getResourcesFromDLL env filename table resource_kind with_data).1 = .ok [] := by
  have hm := matchingEntries_eq_nil table resource_kind hnone
  simp [getResourcesFromDLL, hload, hm, enumLoop]

/-- Witness for C7 at a concrete input: a table holding one data resource
(kind 10), enumerated for the icon kind 3. -/
theorem getResourcesFromDLL_empty_kind_witness :
    allOkEnv.loadOk = true ∧
    (∀ e ∈ ([⟨10, .intId 5, 0, [7]⟩] : ResTable), e.kind ≠ 3) ∧
    (getResourcesFromDLL allOkEnv (.str "x.dll") [⟨10, .intId 5, 0, [7]⟩] 3 true).1 =
      .ok [] :=
  ⟨rfl, by decide,
    getResourcesFromDLL_empty_kind allOkEnv (.str "x.dll") [⟨10, .intId 5, 0, [7]⟩] 3
      true rfl (by decide)⟩

theorem enumLoop_all_narrow (with_data : Bool) (kind : Nat)
    (l : List (ResName × Bytes)) :
    ((enumLoop with_data kind l).2.all usesNarrowForIdentifiers) = true := by
  induction l with
  | nil => simp [enumLoop]
  | cons p rest ih =>
    obtain ⟨name, stored⟩ := p
    cases with_data with
    | true =>
      rcases he : enumLoop true kind rest with ⟨items, tre⟩
      have hre : (tre.all usesNarrowForIdentifiers) = true := by
        have := ih
        rw [he] at this
        exact this
      simp [enumLoop, extractOne, he, hre, usesNarrowForIdentifiers]
    | false =>
      rcases he : enumLoop false kind rest with ⟨items, tre⟩
      have hre : (tre.all usesNarrowForIdentifiers) = true := by
        have := ih
        rw [he] at this
        exact this
      simp [enumLoop, he, hre]

/-- C9: enumeration and staged updates go through the fixed narrow (8-bit)
entry points for resource identifiers: every identifier-taking call in the
trace of getResourcesFromDLL and of _updateResource uses the narrow entry
point, and the entry points of the _updateResource trace are identical for
any two identifiers, whatever their runtime type. -/
theorem narrow_entry_point_for_identifiers (env : OsEnv) (filename : FileName)
    (table : ResTable) (resource_kind : Nat) (with_data : Bool)
    (update_handle : UpdateHandle) (res_name res_name2 : ResName) (lang : Nat)
    (data : Option Bytes) :
    ((getResourcesFromDLL env filename table resource_kind with_data).2.all
      usesNarrowForIdentifiers) = true ∧
    ((_updateResource env update_handle resource_kind res_name lang data).2.1.all
      usesNarrowForIdentifiers) = true ∧
    ((_updateResource env update_handle resource_kind res_name lang data).2.1.map
        identifierEntryPoint) =
      ((_updateResource env update_handle resource_kind res_name2 lang data).2.1.map
        identifierEntryPoint) := by
  refine ⟨?_, ?_, ?_⟩
  · rcases he : enumLoop with_data resource_kind (matchingEntries table resource_kind)
      with ⟨items, tre⟩
    have hre : (tre.all usesNarrowForIdentifiers) = true := by
      have := enumLoop_all_narrow with_data resource_kind
        (matchingEntries table resource_kind)
      rw [he] at this
      exact this
    cases hl : env.loadOk <;>
      simp [getResourcesFromDLL, hl, he, hre, usesNarrowForIdentifiers]
  · rw [updateResource_trace]
    simp [usesNarrowForIdentifiers]
  · rw [updateResource_trace, updateResource_trace]
    simp [identifierEntryPoint]

theorem enumLoop_kinds (with_data : Bool) (kind : Nat) (l : List (ResName × Bytes)) :
    ((enumLoop with_data kind l).1.all (kindsMatch kind)) = true := by
  induction l with
  | nil => simp [enumLoop]
  | cons p rest ih =>
    obtain ⟨name, stored⟩ := p
    cases with_data with
    | true =>
      rcases he : enumLoop true kind rest with ⟨items, tre⟩
      have h0 : (items.all (kindsMatch kind)) = true := by
        have := ih
        rw [he] at this
        exact this
      simp [enumLoop, extractOne, he, kindsMatch, h0]
    | false =>
      rcases he : enumLoop false kind rest with ⟨items, tre⟩
      have h0 : (items.all (kindsMatch kind)) = true := by
        have := ih
        rw [he] at this
        exact this
      simp [enumLoop, he, kindsMatch, h0]

theorem getResourcesFromDLL_error_winError (env : OsEnv) (filename : FileName)
    (table : ResTable) (resource_kind : Nat) (with_data : Bool) :
    ∀ e, (getResourcesFromDLL env filename table resource_kind with_data).1 = .error e →
      e = .winError := by
  intro e h
  cases hl : env.loadOk with
  | false =>
    simp [getResourcesFromDLL, hl] at h
    exact h.symm
  | true =>
    rcases he : enumLoop with_data resource_kind (matchingEntries table resource_kind)
      with ⟨items, tre⟩
    simp [getResourcesFromDLL, hl, he] at h

theorem getResourcesFromDLL_kinds (env : OsEnv) (filename : FileName)
    (table : ResTable) (resource_kind : Nat) (with_data : Bool) :
    ∀ items,
      (getResourcesFromDLL env filename table resource_kind with_data).1 = .ok items →
      (items.all (kindsMatch resource_kind)) = true := by
  intro items h
  cases hl : env.loadOk with
  | false => simp [getResourcesFromDLL, hl] at h
  | true =>
    rcases he : enumLoop with_data resource_kind (matchingEntries table resource_kind)
      with ⟨items0, tre⟩
    simp [getResourcesFromDLL, hl, he] at h
    have := enumLoop_kinds with_data resource_kind (matchingEntries table resource_kind)
    rw [he] at this
    rw [h] at this
    exact this

theorem copyLoop_no_assert (env : OsEnv) (resource_kind : Nat) :
    ∀ (items : List ResItem) (update_handle : UpdateHandle),
      (items.all (kindsMatch resource_kind)) = true →
      ∀ e, (copyLoop env resource_kind update_handle items).1 = .error e →
        e ≠ .assertionError := by
  intro items
  induction items with
  | nil =>
    intro update_handle _ e he
    simp [copyLoop] at he
  | cons item rest ih =>
    intro update_handle hall e he
    cases item with
    | nameOnly n =>
      simp [copyLoop] at he
      rw [← he]
      intro hc
      exact nomatch hc
    | full k n d =>
      rw [List.all_cons, Bool.and_eq_true] at hall
      obtain ⟨hk0, hrest⟩ := hall
      have hk : k = resource_kind := by simpa [kindsMatch] using hk0
      cases hupd : env.updateOk resource_kind n with
      | false =>
        simp [copyLoop, hk, _updateResource, hupd] at he
        rw [← he]
        intro hc
        exact nomatch hc
      | true =>
        rcases hc : copyLoop env resource_kind
            ⟨update_handle.staged ++ [⟨resource_kind, n, 0, some d⟩]⟩ rest with ⟨rc, trc⟩
        cases rc with
        | ok h2 => simp [copyLoop, hk, _updateResource, hupd, hc] at he
        | error e2 =>
          simp [copyLoop, hk, _updateResource, hupd, hc] at he
          have := ih ⟨update_handle.staged ++ [⟨resource_kind, n, 0, some d⟩]⟩
            hrest e2 (by rw [hc])
          rw [he] at this
          exact this

/-- C10: the kind assertion in copyResourcesFromFileToFile never fails: the
enumeration is restricted to the requested kind and every full triple it
produces carries that kind, so the composed operation never ends in an
assertion failure, whatever the environment and the two files hold. -/
theorem copyResources_kind_assertion_never_fails (env : OsEnv)
    (source_filename target_filename : FileName) (source target : ResTable)
    (resource_kind : Nat) :
    isAssertionFailure
      (copyResourcesFromFileToFile env source_filename target_filename source target
        resource_kind).1 = false := by
  rcases hg : getResourcesFromDLL env source_filename source resource_kind true
    with ⟨rg, trg⟩
  cases rg with
  | error e =>
    have he : e = .winError := by
      apply getResourcesFromDLL_error_winError env source_filename source resource_kind true
      rw [hg]
    subst he
    simp [copyResourcesFromFileToFile, hg, isAssertionFailure]
  | ok res_data =>
    have hall : (res_data.all (kindsMatch resource_kind)) = true := by
      apply getResourcesFromDLL_kinds env source_filename source resource_kind true
      rw [hg]
    by_cases hemp : res_data.isEmpty = true
    · simp [copyResourcesFromFileToFile, hg, hemp, isAssertionFailure]
    · cases hb : env.beginOk with
      | false =>
        simp [copyResourcesFromFileToFile, hg, hemp, _openFileWindowsResources, hb,
          isAssertionFailure]
      | true =>
        rcases hc : copyLoop env resource_kind ⟨[]⟩ res_data with ⟨rc, trc⟩
        cases rc with
        | ok h2 =>
          cases hend : env.endOk <;>
            simp [copyResourcesFromFileToFile, hg, hemp, _openFileWindowsResources, hb,
              hc, _closeFileWindowsResources, hend, isAssertionFailure]
        | error e =>
          have hne : e ≠ .assertionError :=
            copyLoop_no_assert env resource_kind res_data ⟨[]⟩ hall e (by rw [hc])
          cases e with
          | winError =>
            simp [copyResourcesFromFileToFile, hg, hemp, _openFileWindowsResources, hb,
              hc, isAssertionFailure]
          | assertionError => exact absurd rfl hne
          | typeError =>
            simp [copyResourcesFromFileToFile, hg, hemp, _openFileWindowsResources, hb,
              hc, isAssertionFailure]

theorem enumLoop_with_data_items (kind : Nat) (l : List (ResName × Bytes)) :
    (enumLoop true kind l).1 = l.map (fun p => ResItem.full kind p.1 p.2) := by
  induction l with
  | nil => simp [enumLoop]
  | cons p rest ih =>
    obtain ⟨name, stored⟩ := p
    rcases he : enumLoop true kind rest with ⟨items, tre⟩
    have h0 : items = rest.map (fun p => ResItem.full kind p.1 p.2) := by
      rw [he] at ih
      exact ih
    subst h0
    simp [enumLoop, extractOne, he]

theorem matchingEntries_append (a b : ResTable) (kind : Nat) :
    matchingEntries (a ++ b) kind = matchingEntries a kind ++ matchingEntries b kind := by
  simp [matchingEntries, List.filter_append]

theorem matchingEntries_filter_names (target : ResTable) (resource_kind : Nat)
    (res_name : ResName) :
    ∀ p ∈ matchingEntries
        (target.filter (fun e => !(e.kind == resource_kind && e.name == res_name)))
        resource_kind,
      p.1 ≠ res_name := by
  intro p hp
  unfold matchingEntries at hp
  rw [List.mem_map] at hp
  obtain ⟨e, he, hpe⟩ := hp
  rw [List.mem_filter] at he
  obtain ⟨he1, hekind⟩ := he
  rw [List.mem_filter] at he1
  obtain ⟨_, henot⟩ := he1
  rw [← hpe]
  intro hname
  have hname2 : e.name = res_name := hname
  have hkind : e.kind = resource_kind := by simpa using hekind
  simp [hkind, hname2] at henot

theorem findData_map_append (kind : Nat) (pre : List (ResName × Bytes))
    (res_name : ResName) (data : Bytes)
    (hpre : ∀ p ∈ pre, p.1 ≠ res_name) :
    findData ((pre.map (fun p => ResItem.full kind p.1 p.2)) ++
      [ResItem.full kind res_name data]) res_name = some data := by
  induction pre with
  | nil => simp [findData]
  | cons q rest ih =>
    obtain ⟨qn, qd⟩ := q
    have hq : qn ≠ res_name := hpre (qn, qd) (List.mem_cons_self _ _)
    have hrest : ∀ p ∈ rest, p.1 ≠ res_name :=
      fun p hp => hpre p (List.mem_cons_of_mem _ hp)
    simp [findData, hq, ih hrest]

/-- C6: staging a payload with addResourceToFile and committing, then
extracting the same (kind, identifier) pair from the resulting file,
returns a byte sequence of exactly the supplied length: the staged size is
the payload length and the extraction copies exactly the stored size. -/
theorem addResource_roundtrip_exact_length (env : OsEnv)
    (target_filename source_filename : FileName) (target : ResTable) (data : Bytes)
    (resource_kind : Nat) (res_name : ResName)
    (hbegin : env.beginOk = true)
    (hupd : env.updateOk resource_kind res_name = true)
    (hend : env.endOk = true)
    (hload : env.loadOk = true) :
    (addResourceToFile env target_filename target data resource_kind res_name).1 =
      .ok () ∧
    (∃ extracted,
      lookupItems
        (getResourcesFromDLL env source_filename
          (addResourceToFile env target_filename target data resource_kind
            res_name).2.2
          resource_kind true).1 res_name = some extracted ∧
      extracted.length = data.length) := by
  have htable :
      (addResourceToFile env target_filename target data resource_kind res_name).2.2 =
        target.filter (fun e => !(e.kind == resource_kind && e.name == res_name)) ++
          [⟨resource_kind, res_name, 0, data⟩] := by
    simp [addResourceToFile, _openFileWindowsResources, hbegin, _updateResource, hupd,
      _closeFileWindowsResources, hend, applyStagedOp]
  have hres :
      (addResourceToFile env target_filename target data resource_kind res_name).1 =
        .ok () := by
    simp [addResourceToFile, _openFileWindowsResources, hbegin, _updateResource, hupd,
      _closeFileWindowsResources, hend]
  refine ⟨hres, data, ?_, rfl⟩
  rw [htable]
  have hm : matchingEntries
      (target.filter (fun e => !(e.kind == resource_kind && e.name == res_name)) ++
        [⟨resource_kind, res_name, 0, data⟩]) resource_kind =
      matchingEntries
        (target.filter (fun e => !(e.kind == resource_kind && e.name == res_name)))
        resource_kind ++ [(res_name, data)] := by
    rw [matchingEntries_append]
    simp [matchingEntries]
  rcases he : enumLoop true resource_kind
      (matchingEntries
        (target.filter (fun e => !(e.kind == resource_kind && e.name == res_name)) ++
          [⟨resource_kind, res_name, 0, data⟩]) resource_kind) with ⟨items, tre⟩
  have hre : items =
      ((matchingEntries
        (target.filter (fun e => !(e.kind == resource_kind && e.name == res_name)) ++
          [⟨resource_kind, res_name, 0, data⟩]) resource_kind).map
        (fun p => ResItem.full resource_kind p.1 p.2)) := by
    have := enumLoop_with_data_items resource_kind
      (matchingEntries
        (target.filter (fun e => !(e.kind == resource_kind && e.name == res_name)) ++
          [⟨resource_kind, res_name, 0, data⟩]) resource_kind)
    rw [he] at this
    exact this
  subst hre
  simp only [getResourcesFromDLL, hload, if_pos rfl, he]
  simp only [lookupItems, hm]
  rw [List.map_append]
  simp only [List.map_cons, List.map_nil]
  exact findData_map_append resource_kind
    (matchingEntries
      (target.filter (fun e => !(e.kind == resource_kind && e.name == res_name)))
      resource_kind) res_name data
    (matchingEntries_filter_names target resource_kind res_name)

/-- Witness for C6 at a concrete input: staging three bytes as data
resource 1 of kind 10 into an empty file and extracting it back. -/
theorem addResource_roundtrip_exact_length_witness :
    allOkEnv.beginOk = true ∧ allOkEnv.updateOk 10 (.intId 1) = true ∧
    allOkEnv.endOk = true ∧ allOkEnv.loadOk = true ∧
    ((addResourceToFile allOkEnv (.str "t.exe") [] [5, 6, 7] 10 (.intId 1)).1 =
        .ok () ∧
      (∃ extracted,
        lookupItems
          (getResourcesFromDLL allOkEnv (.str "t.exe")
            (addResourceToFile allOkEnv (.str "t.exe") [] [5, 6, 7] 10 (.intId 1)).2.2
            10 true).1 (.intId 1) = some extracted ∧
        extracted.length = ([5, 6, 7] : Bytes).length)) :=
  ⟨rfl, rfl, rfl, rfl,
    addResource_roundtrip_exact_length allOkEnv (.str "t.exe") (.str "t.exe") []
      [5, 6, 7] 10 (.intId 1) rfl rfl rfl rfl⟩

end WindowsResources
